import Mathlib

set_option synthInstance.maxSize 512

/-!
Verification of the identity-resolution and merge-safety core of the
books-project repository (src/utils/normalization.py, work_id.py,
csv_utils.py, deduplication.py), as a shallow embedding in Lean 4.

Python strings are modelled as `List Char` with ASCII character semantics
(the repository's data is ASCII in all relevant places; `str.lower`,
`str.upper`, `str.title`, `str.isdigit`, `\w`, `\s` are embedded at their
ASCII meaning). Python `None` is `Option.none`; a dict is an insertion
ordered association list with unique keys in practice. Functions that can
raise (attribute access on `None`) return `Except`.
-/

namespace Books

/-- Python strings, modelled as lists of characters. -/
abbrev PyStr := List Char

/-- Characters treated as whitespace by Python's `str.strip`, `str.split`
and the regex class `\s` (ASCII subset). -/
def pyIsSpace (c : Char) : Bool :=
  c = ' ' || c = '\t' || c = '\n' || c = '\r' || c = '\x0b' || c = '\x0c'

/-- Python `s.strip()` : drop leading and trailing whitespace. -/
def pyStrip (s : PyStr) : PyStr :=
  ((s.dropWhile pyIsSpace).reverse.dropWhile pyIsSpace).reverse

/-- One step of collapsing whitespace runs: embedding of
`re.sub(r'\s+', ' ', s)` — every maximal run of whitespace becomes one space. -/
def collapseWS : PyStr → PyStr
  | [] => []
  | [c] => [if pyIsSpace c then ' ' else c]
  | c1 :: c2 :: cs =>
    if pyIsSpace c1 && pyIsSpace c2 then collapseWS (c2 :: cs)
    else (if pyIsSpace c1 then ' ' else c1) :: collapseWS (c2 :: cs)

/-- The regex class `\w` (ASCII): letters, digits, underscore. -/
def isWordChar (c : Char) : Bool := c.isAlpha || c.isDigit || c = '_'

/-- Python `s.split()` (no separator): split on whitespace runs, no empty
tokens. Auxiliary accumulator holds the current token reversed. -/
def splitWSAux : PyStr → PyStr → List PyStr
  | [], acc => if acc.isEmpty then [] else [acc.reverse]
  | c :: cs, acc =>
    if pyIsSpace c then
      if acc.isEmpty then splitWSAux cs [] else acc.reverse :: splitWSAux cs []
    else splitWSAux cs (c :: acc)

/-- Python `s.split()` with no arguments. -/
def pySplitWS (s : PyStr) : List PyStr := splitWSAux s []

/-- Python `sep.join(xs)`. -/
def pyJoin (sep : PyStr) (xs : List PyStr) : PyStr := List.intercalate sep xs

/-- Python `s.split(sep)` for a one-character separator: keeps empty tokens. -/
def splitAllAux (sep : Char) : PyStr → PyStr → List PyStr
  | [], acc => [acc.reverse]
  | c :: cs, acc =>
    if c = sep then acc.reverse :: splitAllAux sep cs []
    else splitAllAux sep cs (c :: acc)

/-- Python `s.split(sep)` (e.g. `'a|b'.split('|')`). -/
def splitAll (sep : Char) (s : PyStr) : List PyStr := splitAllAux sep s []

/-- Python `s.split(sep, 1)` : split at most once, at the first occurrence. -/
def splitOnce (sep : Char) (s : PyStr) : List PyStr :=
  if s.contains sep then
    [s.takeWhile (fun c => !(c = sep)), (s.dropWhile (fun c => !(c = sep))).tail]
  else [s]

/-- Python `s.title()` (ASCII): the first letter of each maximal letter run
is uppercased, the following letters lowercased. The boolean argument
records whether the previous character was a letter. -/
def pyTitleAux : Bool → PyStr → PyStr
  | _, [] => []
  | prevAlpha, c :: cs =>
    (if c.isAlpha then (if prevAlpha then c.toLower else c.toUpper) else c)
      :: pyTitleAux c.isAlpha cs

/-- Python `s.title()` (ASCII semantics). -/
def pyTitle (s : PyStr) : PyStr := pyTitleAux false s

/-! ## Digests

`compute_canonical_id` calls `hashlib.md5` and `generate_work_id` calls
`hashlib.sha256`; both digest algorithms are embedded here over byte lists
(standard RFC 1321 / FIPS 180-4 definitions, 32-bit words as `Nat % 2^32`). -/

/-- UTF-8 encoding of one character. -/
def utf8Encode1 (c : Char) : List Nat :=
  let n := c.toNat
  if n < 128 then [n]
  else if n < 2048 then [192 + n / 64, 128 + n % 64]
  else if n < 65536 then [224 + n / 4096, 128 + (n / 64) % 64, 128 + n % 64]
  else [240 + n / 262144, 128 + (n / 4096) % 64, 128 + (n / 64) % 64, 128 + n % 64]

/-- UTF-8 encoding of a string (Python `s.encode('utf-8')`). -/
def utf8Encode (s : PyStr) : List Nat := (s.map utf8Encode1).join

/-- `k` bytes of `n`, little-endian. -/
def toBytesLE : Nat → Nat → List Nat
  | 0, _ => []
  | k+1, n => n % 256 :: toBytesLE k (n / 256)

/-- `k` bytes of `n`, big-endian. -/
def toBytesBE (k n : Nat) : List Nat := (toBytesLE k n).reverse

/-- Little-endian byte list to number. -/
def fromBytesLE (bs : List Nat) : Nat := bs.foldr (fun b acc => b + 256 * acc) 0

/-- Big-endian byte list to number. -/
def fromBytesBE (bs : List Nat) : Nat := bs.foldl (fun acc b => acc * 256 + b) 0

/-- 32-bit left rotation (argument assumed `< 2^32`, `0 < s < 32`). -/
def rotl32 (x s : Nat) : Nat := Nat.lor ((x <<< s) % 4294967296) (x >>> (32 - s))

/-- 32-bit right rotation. -/
def rotr32 (x s : Nat) : Nat := Nat.lor (x >>> s) ((x <<< (32 - s)) % 4294967296)

/-- 32-bit complement. -/
def not32 (x : Nat) : Nat := Nat.xor x 4294967295

/-- Split a byte list into 64-byte chunks (structural recursion on a fuel
bound, so that the definition evaluates by kernel reduction; the fuel
`l.length` always suffices). -/
def chunksOf64Fuel : Nat → List Nat → List (List Nat)
  | 0, _ => []
  | _, [] => []
  | fuel+1, a :: l => (a :: l).take 64 :: chunksOf64Fuel fuel ((a :: l).drop 64)

/-- Split a byte list into 64-byte chunks. -/
def chunksOf64 (l : List Nat) : List (List Nat) := chunksOf64Fuel l.length l

/-- Merkle–Damgård padding: append `0x80`, zero bytes to 56 mod 64, then the
8-byte bit length (little-endian for MD5). -/
def md5Pad (msg : List Nat) : List Nat :=
  msg ++ 128 :: List.replicate ((119 - msg.length % 64) % 64) 0
    ++ toBytesLE 8 ((8 * msg.length) % 18446744073709551616)

/-- Same padding with a big-endian length field (SHA-256). -/
def sha256Pad (msg : List Nat) : List Nat :=
  msg ++ 128 :: List.replicate ((119 - msg.length % 64) % 64) 0
    ++ toBytesBE 8 ((8 * msg.length) % 18446744073709551616)

/-- The 16 little-endian 32-bit words of a 64-byte chunk. -/
def chunkWordsLE (chunk : List Nat) : List Nat :=
  (List.range 16).map (fun i => fromBytesLE ((chunk.drop (4 * i)).take 4))

/-- The 16 big-endian 32-bit words of a 64-byte chunk. -/
def chunkWordsBE (chunk : List Nat) : List Nat :=
  (List.range 16).map (fun i => fromBytesBE ((chunk.drop (4 * i)).take 4))

/-- MD5 sine-derived round constants. -/
def md5K : List Nat := [
  3614090360, 3905402710, 606105819, 3250441966, 4118548399, 1200080426, 2821735955, 4249261313,
  1770035416, 2336552879, 4294925233, 2304563134, 1804603682, 4254626195, 2792965006, 1236535329,
  4129170786, 3225465664, 643717713, 3921069994, 3593408605, 38016083, 3634488961, 3889429448,
  568446438, 3275163606, 4107603335, 1163531501, 2850285829, 4243563512, 1735328473, 2368359562,
  4294588738, 2272392833, 1839030562, 4259657740, 2763975236, 1272893353, 4139469664, 3200236656,
  681279174, 3936430074, 3572445317, 76029189, 3654602809, 3873151461, 530742520, 3299628645,
  4096336452, 1126891415, 2878612391, 4237533241, 1700485571, 2399980690, 4293915773, 2240044497,
  1873313359, 4264355552, 2734768916, 1309151649, 4149444226, 3174756917, 718787259, 3951481745]

/-- MD5 per-round rotation amounts. -/
def md5S : List Nat := [
  7, 12, 17, 22, 7, 12, 17, 22, 7, 12, 17, 22, 7, 12, 17, 22,
  5, 9, 14, 20, 5, 9, 14, 20, 5, 9, 14, 20, 5, 9, 14, 20,
  4, 11, 16, 23, 4, 11, 16, 23, 4, 11, 16, 23, 4, 11, 16, 23,
  6, 10, 15, 21, 6, 10, 15, 21, 6, 10, 15, 21, 6, 10, 15, 21]

/-- One MD5 round on state `(a, b, c, d)` with message words `m`. -/
def md5Round (m : List Nat) (st : Nat × Nat × Nat × Nat) (i : Nat) :
    Nat × Nat × Nat × Nat :=
  let (a, b, c, d) := st
  let fg :=
    if i < 16 then (Nat.lor (Nat.land b c) (Nat.land (not32 b) d), i)
    else if i < 32 then (Nat.lor (Nat.land d b) (Nat.land (not32 d) c), (5 * i + 1) % 16)
    else if i < 48 then (Nat.xor b (Nat.xor c d), (3 * i + 5) % 16)
    else (Nat.xor c (Nat.lor b (not32 d)), (7 * i) % 16)
  let f := (fg.1 + a + md5K.getD i 0 + m.getD fg.2 0) % 4294967296
  (d, (b + rotl32 f (md5S.getD i 0)) % 4294967296, b, c)

/-- Process one 64-byte chunk of an MD5 computation. -/
def md5Chunk (st : Nat × Nat × Nat × Nat) (chunk : List Nat) :
    Nat × Nat × Nat × Nat :=
  let res := (List.range 64).foldl (md5Round (chunkWordsLE chunk)) st
  ((st.1 + res.1) % 4294967296, (st.2.1 + res.2.1) % 4294967296,
   (st.2.2.1 + res.2.2.1) % 4294967296, (st.2.2.2 + res.2.2.2) % 4294967296)

/-- MD5 digest (16 bytes) of a byte list. -/
def md5Bytes (msg : List Nat) : List Nat :=
  let st := (chunksOf64 (md5Pad msg)).foldl md5Chunk
    (1732584193, 4023233417, 2562383102, 271733878)
  toBytesLE 4 st.1 ++ toBytesLE 4 st.2.1 ++ toBytesLE 4 st.2.2.1 ++ toBytesLE 4 st.2.2.2

/-- Lowercase hexadecimal digit for `n < 16`. -/
def hexDigit (n : Nat) : Char := if n < 10 then Char.ofNat (48 + n) else Char.ofNat (87 + n)

/-- Lowercase hex rendering of a byte list (Python `hexdigest()`). -/
def bytesToHex (bs : List Nat) : PyStr :=
  (bs.map (fun b => [hexDigit (b / 16), hexDigit (b % 16)])).join

/-- `hashlib.md5(msg).hexdigest()`. -/
def md5hex (msg : List Nat) : PyStr := bytesToHex (md5Bytes msg)

/-- SHA-256 round constants. -/
def sha256K : List Nat := [
  1116352408, 1899447441, 3049323471, 3921009573, 961987163, 1508970993, 2453635748, 2870763221,
  3624381080, 310598401, 607225278, 1426881987, 1925078388, 2162078206, 2614888103, 3248222580,
  3835390401, 4022224774, 264347078, 604807628, 770255983, 1249150122, 1555081692, 1996064986,
  2554220882, 2821834349, 2952996808, 3210313671, 3336571891, 3584528711, 113926993, 338241895,
  666307205, 773529912, 1294757372, 1396182291, 1695183700, 1986661051, 2177026350, 2456956037,
  2730485921, 2820302411, 3259730800, 3345764771, 3516065817, 3600352804, 4094571909, 275423344,
  430227734, 506948616, 659060556, 883997877, 958139571, 1322822218, 1537002063, 1747873779,
  1955562222, 2024104815, 2227730452, 2361852424, 2428436474, 2756734187, 3204031479, 3329325298]

/-- SHA-256 initial hash state. -/
def sha256H0 : List Nat := [
  1779033703, 3144134277, 1013904242, 2773480762, 1359893119, 2600822924, 528734635, 1541459225]

/-- One message-schedule extension step (`w[i]` from `w[i-16..i-2]`). -/
def sha256ExtendStep (w : List Nat) (i : Nat) : List Nat :=
  let w15 := w.getD (i - 15) 0
  let w2 := w.getD (i - 2) 0
  let s0 := Nat.xor (rotr32 w15 7) (Nat.xor (rotr32 w15 18) (w15 >>> 3))
  let s1 := Nat.xor (rotr32 w2 17) (Nat.xor (rotr32 w2 19) (w2 >>> 10))
  w ++ [(w.getD (i - 16) 0 + s0 + w.getD (i - 7) 0 + s1) % 4294967296]

/-- The 64-word message schedule of a chunk. -/
def sha256Schedule (chunk : List Nat) : List Nat :=
  ((List.range 64).drop 16).foldl sha256ExtendStep (chunkWordsBE chunk)

/-- One SHA-256 compression round; the state is the 8-word list `[a..h]`. -/
def sha256Round (st : List Nat) (kw : Nat × Nat) : List Nat :=
  match st with
  | [a, b, c, d, e, f, g, h] =>
    let S1 := Nat.xor (rotr32 e 6) (Nat.xor (rotr32 e 11) (rotr32 e 25))
    let ch := Nat.xor (Nat.land e f) (Nat.land (not32 e) g)
    let temp1 := (h + S1 + ch + kw.1 + kw.2) % 4294967296
    let S0 := Nat.xor (rotr32 a 2) (Nat.xor (rotr32 a 13) (rotr32 a 22))
    let maj := Nat.xor (Nat.land a b) (Nat.xor (Nat.land a c) (Nat.land b c))
    let temp2 := (S0 + maj) % 4294967296
    [(temp1 + temp2) % 4294967296, a, b, c, (d + temp1) % 4294967296, e, f, g]
  | other => other

/-- Process one 64-byte chunk of a SHA-256 computation. -/
def sha256Chunk (st : List Nat) (chunk : List Nat) : List Nat :=
  let st' := (sha256K.zip (sha256Schedule chunk)).foldl sha256Round st
  (st.zip st').map (fun p => (p.1 + p.2) % 4294967296)

/-- SHA-256 digest (32 bytes) of a byte list. -/
def sha256Bytes (msg : List Nat) : List Nat :=
  (((chunksOf64 (sha256Pad msg)).foldl sha256Chunk sha256H0).map (toBytesBE 4)).join

/-- `hashlib.sha256(msg).hexdigest()`. -/
def sha256hex (msg : List Nat) : PyStr := bytesToHex (sha256Bytes msg)

/-! ## Records (Python dicts) -/

/-- A record: an insertion-ordered mapping from field names to
`string | None`. `none` as a value is Python `None`; an absent key is a
missing list entry. -/
abbrev Record := List (String × Option PyStr)

/-- Dict lookup: `some v` if the key is present with stored value `v`
(itself possibly Python `None`), `none` if the key is absent. -/
def lookup1 : Record → String → Option (Option PyStr)
  | [], _ => none
  | (k, v) :: rest, key => if k = key then some v else lookup1 rest key

/-- Python `key in d`. -/
def dictMem (r : Record) (k : String) : Bool := (lookup1 r k).isSome

/-- Python `d.get(key, default)`. -/
def pyGetD (r : Record) (k : String) (d : Option PyStr) : Option PyStr :=
  (lookup1 r k).getD d

/-- Python `d.get(key)` (default `None`). -/
def pyGet (r : Record) (k : String) : Option PyStr := pyGetD r k none

/-- Python `d[key] = v`: update in place if present, else append. -/
def dictSet : Record → String → Option PyStr → Record
  | [], k, v => [(k, v)]
  | (k', v') :: rest, k, v =>
    if k' = k then (k', v) :: rest else (k', v') :: dictSet rest k v

/-- Truthiness of a Python string-or-None value: `None` and `''` are falsy. -/
def truthy : Option PyStr → Bool
  | none => false
  | some s => !s.isEmpty

/-- A Python `AttributeError` (attribute access on `None`). -/
inductive PyErr where
  | attributeError
deriving DecidableEq, Repr

/-- Python `value.strip()` where `value` came from `d.get(k, default)`:
raises `AttributeError` when the value is `None`. -/
def pyStripV : Option PyStr → Except PyErr PyStr
  | none => .error .attributeError
  | some s => .ok (pyStrip s)

/-! ## normalization.py -/

/-- The article-stripping loop of `normalize_title` (lines 30–33): for each
prefix in `['the ', 'a ', 'an ']`, in that order, strip it (and re-strip
whitespace) if the current string starts with it. -/
def stripArticles (n : PyStr) : PyStr :=
  ["the ".toList, "a ".toList, "an ".toList].foldl
    (fun acc p => if p.isPrefixOf acc then pyStrip (acc.drop p.length) else acc) n

/-- `normalize_title` (normalization.py lines 9–35): lowercase, strip,
remove non-`\w`/non-`\s` characters, collapse whitespace, then the article
prefix loop. The parameter is `Option` so that the Python falsy test
`if not title` covers both `None` and the empty string. -/
def normalize_title (title : Option PyStr) : PyStr :=
  match title with
  | none => []
  | some t =>
    if t.isEmpty then []
    else
      let normalized := pyStrip (t.map Char.toLower)
      let normalized := normalized.filter (fun c => isWordChar c || pyIsSpace c)
      let normalized := pyStrip (collapseWS normalized)
      stripArticles normalized

/-- `normalize_author` (lines 38–65): collapse whitespace; `"Last, First"`
inputs are re-title-cased; `"First Last"` inputs are rendered as
`"Last, First"`; a single token is title-cased unchanged. -/
def normalize_author (author : Option PyStr) : PyStr :=
  match author with
  | none => []
  | some a =>
    if a.isEmpty then []
    else
      let author := pyJoin [' '] (pySplitWS a)
      if author.contains ',' then
        match (splitOnce ',' author).map pyStrip with
        | [p0, p1] => pyTitle p0 ++ ", ".toList ++ pyTitle p1
        | p0 :: _ => pyTitle p0
        | [] => []
      else
        let parts := pySplitWS author
        if parts.length ≥ 2 then
          pyTitle (parts.getLastD []) ++ ", ".toList ++ pyTitle (pyJoin [' '] parts.dropLast)
        else pyTitle author

/-- `normalize_isbn13` (lines 68–89): remove hyphens and whitespace; valid
iff exactly 13 decimal digits (the 10-digit case also returns `None`). -/
def normalize_isbn13 (isbn : Option PyStr) : Option PyStr :=
  match isbn with
  | none => none
  | some s =>
    if s.isEmpty then none
    else
      let cleaned := s.filter (fun c => !(c = '-' || pyIsSpace c))
      if cleaned.length = 13 && cleaned.all Char.isDigit then some cleaned
      else none

/-- `normalize_asin` (lines 92–106): strip and uppercase; valid iff exactly
10 characters. -/
def normalize_asin (asin : Option PyStr) : Option PyStr :=
  match asin with
  | none => none
  | some s =>
    if s.isEmpty then none
    else
      let cleaned := (pyStrip s).map Char.toUpper
      if cleaned.length = 10 then some cleaned else none

/-- `compute_canonical_id` (lines 109–132): ISBN-13, else ASIN, else
`"hash:"` plus the first 12 hex characters of the MD5 of the UTF-8 bytes of
`normalized_title + "|" + normalized_author`. -/
def compute_canonical_id (row : Record) : PyStr :=
  match normalize_isbn13 (pyGetD row "isbn13" (some [])) with
  | some isbn13 => "isbn13:".toList ++ isbn13
  | none =>
  match normalize_asin (pyGetD row "asin" (some [])) with
  | some asin => "asin:".toList ++ asin
  | none =>
    let title := normalize_title (pyGetD row "title" (some []))
    let author := normalize_author (pyGetD row "author" (some []))
    let combined := title ++ '|' :: author
    "hash:".toList ++ (md5hex (utf8Encode combined)).take 12

/-! ## work_id.py -/

/-- `book.get('isbn13', '').strip().replace('-', '').replace(' ', '')`
(work_id.py line 36): only hyphens and plain spaces are removed here. -/
def isbnClean (isbn13 : PyStr) : PyStr := isbn13.filter (fun c => !(c = '-' || c = ' '))

/-- `asin.upper().strip()` (line 43). -/
def asinClean (asin : PyStr) : PyStr := pyStrip (asin.map Char.toUpper)

/-- `generate_work_id` (work_id.py lines 11–64). `uuid4hex` stands for the
value of `uuid.uuid4().hex` on this call (randomness passed as an input).
Returns `Except` because `book.get(f, '').strip()` raises `AttributeError`
when the stored value is `None`. -/
def generate_work_id (book : Record) (existing_work_id : Option PyStr)
    (uuid4hex : PyStr) : Except PyErr PyStr :=
  -- line 25: if existing_work_id and existing_work_id.strip():
  if truthy existing_work_id && !(pyStrip (existing_work_id.getD [])).isEmpty then
    .ok (pyStrip (existing_work_id.getD []))
  -- line 29: if book.get('work_id') and book.get('work_id').strip():
  else if truthy (pyGet book "work_id") && !(pyStrip ((pyGet book "work_id").getD [])).isEmpty then
    .ok (pyStrip ((pyGet book "work_id").getD []))
  else
    match pyStripV (pyGetD book "isbn13" (some [])) with
    | .error e => .error e
    | .ok isbn13 =>
      if !isbn13.isEmpty && ((isbnClean isbn13).length = 13 && (isbnClean isbn13).all Char.isDigit) then
        .ok ("isbn13:".toList ++ isbnClean isbn13)
      else
        match pyStripV (pyGetD book "asin" (some [])) with
        | .error e => .error e
        | .ok asin =>
          if !asin.isEmpty && (asinClean asin).length = 10 then
            .ok ("asin:".toList ++ asinClean asin)
          else
            match pyStripV (pyGetD book "title" (some [])) with
            | .error e => .error e
            | .ok title =>
              match pyStripV (pyGetD book "author" (some [])) with
              | .error e => .error e
              | .ok author =>
                if !title.isEmpty && !author.isEmpty then
                  let combined := normalize_title (some title) ++ '|' :: normalize_author (some author)
                  .ok ("hash:".toList ++ (sha256hex (utf8Encode combined)).take 16)
                else
                  .ok ("uuid:".toList ++ uuid4hex.take 16)

/-! ## csv_utils.py -/

/-- `is_manually_set` (csv_utils.py lines 55–59): not `None` and non-blank. -/
def is_manually_set : Option PyStr → Bool
  | none => false
  | some s => !(pyStrip s).isEmpty

/-- Token multiset of one side of `union_pipe`: `split('|')`, strip each
token, drop blanks (lines 74–80; the falsy guard maps `None`/`''` to the
empty set). -/
def pipeTokens (s : Option PyStr) : List PyStr :=
  match s with
  | none => []
  | some s =>
    if s.isEmpty then []
    else ((splitAll '|' s).map pyStrip).filter (fun t => !t.isEmpty)

/-- Python's `<` on strings: lexicographic by code point, a proper prefix
is smaller. -/
def pyStrLt : PyStr → PyStr → Bool
  | [], [] => false
  | [], _ :: _ => true
  | _ :: _, [] => false
  | a :: as, b :: bs => if a < b then true else if b < a then false else pyStrLt as bs

/-- The corresponding `≤`, used to model Python's `sorted`. -/
def pyStrLe (a b : PyStr) : Bool := !pyStrLt b a

/-- Insert into a sorted list, before the first element not smaller. -/
def insertSorted (le : α → α → Bool) (a : α) : List α → List α
  | [] => [a]
  | b :: bs => if le a b then a :: b :: bs else b :: insertSorted le a bs

/-- Python's stable `sorted` / `list.sort`, modelled as insertion sort
(stable: an element is placed before a later equal one). -/
def insertionSort (le : α → α → Bool) : List α → List α
  | [] => []
  | a :: as => insertSorted le a (insertionSort le as)

/-- `union_pipe` (lines 62–87): set union of the two token sets
(`set` modelled as the deduplicated element list), rendered sorted
ascending and pipe-joined, `None` when empty. -/
def union_pipe (existing new : Option PyStr) : Option PyStr :=
  let combined := (pipeTokens existing ++ pipeTokens new).dedup
  if combined.isEmpty then none
  else some (pyJoin ['|'] (insertionSort pyStrLe combined))

/-- `PROTECTED_FIELDS` (lines 91–97). -/
def PROTECTED_FIELDS : List String :=
  ["work_id", "rating", "reread", "reread_count", "dnf", "dnf_reason",
   "pacing_rating", "tone", "vibe", "what_i_wanted", "did_it_deliver",
   "favorite_elements", "pet_peeves", "notes", "anchor_type",
   "read_status", "would_recommend"]

/-- The body of `safe_merge`'s per-key loop (lines 119–143). -/
def mergeStep (merged : Record) (kv : String × Option PyStr) : Record :=
  let key := kv.1
  let new_value := kv.2
  if key = "work_id" then merged
  else if !dictMem merged key then dictSet merged key new_value
  else
    let existing_value := pyGet merged key
    if PROTECTED_FIELDS.contains key then
      if !is_manually_set existing_value && is_manually_set new_value then
        dictSet merged key new_value
      else merged
    else if key = "formats" || key = "sources" || key = "tags" then
      dictSet merged key (union_pipe existing_value new_value)
    else
      if !is_manually_set existing_value && is_manually_set new_value then
        dictSet merged key new_value
      else merged

/-- `safe_merge` (lines 100–145): copy `existing`, resolve `work_id` by
truthiness (lines 113–117), then run the per-key loop over `new`. -/
def safe_merge (existing new : Record) : Record :=
  let merged := existing
  let merged :=
    if truthy (pyGet merged "work_id") then merged
    else if truthy (pyGet new "work_id") then
      dictSet merged "work_id" (pyGet new "work_id")
    else merged
  new.foldl mergeStep merged

/-! ## deduplication.py -/

/-- `compute_title_similarity` (deduplication.py lines 99–132): Jaccard
word-set similarity with a capped 1.1 boost for near-subset titles.
Python floats are embedded as exact rationals. -/
def compute_title_similarity (title1 title2 : PyStr) : ℚ :=
  let norm1 := normalize_title (some title1)
  let norm2 := normalize_title (some title2)
  if norm1.isEmpty || norm2.isEmpty then 0
  else if norm1 == norm2 then 1
  else
    let words1 := (pySplitWS norm1).toFinset
    let words2 := (pySplitWS norm2).toFinset
    if words1 = ∅ || words2 = ∅ then 0
    else
      let inter := words1 ∩ words2
      let uni := words1 ∪ words2
      if uni = ∅ then 0
      else
        let jaccard : ℚ := (inter.card : ℚ) / (uni.card : ℚ)
        if (inter.card : ℚ) ≥ (min words1.card words2.card : ℚ) * (80/100) then
          min 1 (jaccard * (110/100))
        else jaccard

/-- The `parse_author` helper inside `compute_author_similarity`
(lines 150–158). -/
def parse_author (auth : PyStr) : PyStr × PyStr :=
  if auth.contains ',' then
    match (splitOnce ',' auth).map pyStrip with
    | p0 :: p1 :: _ => (p0, p1)
    | [p0] => (p0, [])
    | [] => ([], [])
  else
    let parts := pySplitWS auth
    if parts.length ≥ 2 then (parts.getLastD [], pyJoin [' '] parts.dropLast)
    else (parts.headD [], [])

/-- Python's substring test `a in b` on strings. -/
def pySubstrIn (needle : PyStr) : PyStr → Bool
  | [] => needle.isEmpty
  | c :: cs => needle.isPrefixOf (c :: cs) || pySubstrIn needle cs

/-- `compute_author_similarity` (lines 135–176): surname-first comparison
returning one of 0, 0.85, 0.9, 0.95, 1. -/
def compute_author_similarity (author1 author2 : PyStr) : ℚ :=
  let norm1 := normalize_author (some author1)
  let norm2 := normalize_author (some author2)
  if norm1.isEmpty || norm2.isEmpty then 0
  else if norm1 == norm2 then 1
  else
    let lf1 := parse_author norm1
    let lf2 := parse_author norm2
    if !lf1.1.isEmpty && !lf2.1.isEmpty then
      if lf1.1 == lf2.1 then
        if !lf1.2.isEmpty && !lf2.2.isEmpty then
          if lf1.2 == lf2.2 then 1
          else if (lf1.2.headD ' ' == lf2.2.headD ' ')
              || pySubstrIn lf1.2 lf2.2 || pySubstrIn lf2.2 lf1.2 then 95/100
          else 85/100
        else 90/100
      else 0
    else 0

/-- `has_identifiers` (deduplication.py line 30): the new record carries a
valid normalized ISBN-13 or ASIN. -/
def has_identifiers (new_row : Record) : Bool :=
  (normalize_isbn13 (pyGetD new_row "isbn13" (some []))).isSome
    || (normalize_asin (pyGetD new_row "asin" (some []))).isSome

/-- Which tier of `find_matches`'s per-candidate decision sequence fired. -/
inductive Tier where
  | canonical | isbnTier | asinTier | titleAuthor | partialTier | fuzzy
deriving DecidableEq, Repr

/-- The body of `find_matches`'s candidate loop (deduplication.py lines
32–92), decorated with the tier that fired: the first matching rule wins
for the candidate, `none` when no rule fires. -/
def candidateMatch (new_row existing : Record) : Option (ℚ × Tier) :=
  let new_canonical_id := compute_canonical_id new_row
  let new_title := normalize_title (pyGetD new_row "title" (some []))
  let new_author := normalize_author (pyGetD new_row "author" (some []))
  let new_isbn13 := normalize_isbn13 (pyGetD new_row "isbn13" (some []))
  let new_asin := normalize_asin (pyGetD new_row "asin" (some []))
  let existing_canonical_id := compute_canonical_id existing
  let existing_title := normalize_title (pyGetD existing "title" (some []))
  let existing_author := normalize_author (pyGetD existing "author" (some []))
  let existing_isbn13 := normalize_isbn13 (pyGetD existing "isbn13" (some []))
  let existing_asin := normalize_asin (pyGetD existing "asin" (some []))
  if !new_canonical_id.isEmpty && new_canonical_id == existing_canonical_id then
    some (1, .canonical)
  else if new_isbn13.isSome && existing_isbn13.isSome && new_isbn13 == existing_isbn13 then
    some (95/100, .isbnTier)
  else if new_asin.isSome && existing_asin.isSome && new_asin == existing_asin then
    some (90/100, .asinTier)
  else if (!new_title.isEmpty && !new_author.isEmpty
        && !existing_title.isEmpty && !existing_author.isEmpty)
      && (new_title == existing_title && new_author == existing_author) then
    some (85/100, .titleAuthor)
  else if (!new_title.isEmpty && !new_author.isEmpty
        && !existing_title.isEmpty && !existing_author.isEmpty)
      && has_identifiers new_row && new_title == existing_title
      && (let new_last := if new_author.contains ',' then
            pyStrip (new_author.takeWhile (fun c => !(c = ','))) else []
          let existing_last := if existing_author.contains ',' then
            pyStrip (existing_author.takeWhile (fun c => !(c = ','))) else []
          !new_last.isEmpty && !existing_last.isEmpty && new_last == existing_last) then
    some (70/100, .partialTier)
  else if !has_identifiers new_row
      && (!new_title.isEmpty && !new_author.isEmpty
        && !existing_title.isEmpty && !existing_author.isEmpty)
      && compute_title_similarity new_title existing_title ≥ 92/100
      && compute_author_similarity new_author existing_author ≥ 92/100
      && compute_title_similarity new_title existing_title * (60/100)
        + compute_author_similarity new_author existing_author * (40/100) ≥ 92/100 then
    some (min (85/100) (compute_title_similarity new_title existing_title * (60/100)
        + compute_author_similarity new_author existing_author * (40/100)), .fuzzy)
  else none

/-- `find_matches` (lines 12–96): evaluate every candidate independently,
collect `(index, row, confidence)`, sort descending by confidence (stable,
like Python's `list.sort`). -/
def find_matches (new_row : Record) (existing_rows : List Record) :
    List (Nat × Record × ℚ) :=
  let found := existing_rows.enum.filterMap (fun p =>
    (candidateMatch new_row p.2).map (fun ct => (p.1, p.2, ct.1)))
  insertionSort (fun x y => decide (y.2.2 ≤ x.2.2)) found

/-! ## Verification-layer definitions -/

/-- Lowercase hexadecimal character. -/
def isHexChar (c : Char) : Bool := c.isDigit || ('a' ≤ c && c ≤ 'f')

/-- A pipe-set value already in `union_pipe` normal form (tokens trimmed,
non-empty, deduplicated, sorted; `none` when empty). -/
abbrev PipeCanonical (v : Option PyStr) : Prop := union_pipe v none = v

/-- A well-formed record: keys are unique (it is a dict) and the three
multi-valued fields are in pipe-set normal form, unset fields being `none`. -/
abbrev WellFormed (r : Record) : Prop :=
  (r.map Prod.fst).Nodup ∧
  ∀ k ∈ (["formats", "sources", "tags"] : List String), PipeCanonical (pyGet r k)

/-- A new record carrying a valid ISBN-13 (used to witness identifier
gating). -/
def idNew : Record := [("isbn13", some ("9780743273565".toList))]

/-- A new record with no identifiers whose best match is fuzzy. -/
def gatsbyNew : Record :=
  [("title", some ("great gatsby".toList)),
   ("author", some ("fitzgerald, f scott".toList))]

/-- An existing record that `gatsbyNew` fuzzy-matches. -/
def gatsbyExisting : Record :=
  [("title", some ("the great gatsby".toList)),
   ("author", some ("fitzgerald, f. scott".toList))]

/-- A minimal record taking the hash fallback in both ID functions. -/
def xyBook : Record := [("title", some ['x']), ("author", some ['y'])]

/-- A record with blank identifier fields and set title/author. -/
def duneBook : Record :=
  [("isbn13", some []), ("asin", some []),
   ("title", some ("dune".toList)), ("author", some ("herbert".toList))]

/- Batteries marks the `Rat` arithmetic operations `@[irreducible]`; re-open
them for this file so that concrete confidence scores evaluate by kernel
reduction (`decide`). -/
attribute [local semireducible] Rat.mul Rat.inv Rat.add Rat.sub Rat.ofScientific

/-! ## Dictionary lemmas -/

theorem lookup1_dictSet_self (r : Record) (k : String) (v : Option PyStr) :
    lookup1 (dictSet r k v) k = some v := by
  induction r with
  | nil => simp [dictSet, lookup1]
  | cons kv rest ih =>
    obtain ⟨k', v'⟩ := kv
    by_cases h : k' = k <;> simp [dictSet, lookup1, h, ih]

theorem lookup1_dictSet_ne (r : Record) (k' k : String) (v : Option PyStr)
    (h : k' ≠ k) : lookup1 (dictSet r k' v) k = lookup1 r k := by
  induction r with
  | nil => simp [dictSet, lookup1, h]
  | cons kv rest ih =>
    obtain ⟨k'', v''⟩ := kv
    by_cases h2 : k'' = k' <;> by_cases h3 : k'' = k <;>
      simp_all [dictSet, lookup1]

theorem pyGet_dictSet_ne (r : Record) (k' k : String) (v : Option PyStr)
    (h : k' ≠ k) : pyGet (dictSet r k' v) k = pyGet r k := by
  simp [pyGet, pyGetD, lookup1_dictSet_ne r k' k v h]

theorem pyGet_dictSet_self (r : Record) (k : String) (v : Option PyStr) :
    pyGet (dictSet r k v) k = v := by
  simp [pyGet, pyGetD, lookup1_dictSet_self]

theorem dictSet_lookup_eq (r : Record) (k : String) (v : Option PyStr)
    (h : lookup1 r k = some v) : dictSet r k v = r := by
  induction r with
  | nil => simp [lookup1] at h
  | cons kv rest ih =>
    obtain ⟨k', v'⟩ := kv
    by_cases h2 : k' = k
    · simp only [lookup1, if_pos h2] at h
      simp [dictSet, h2, Option.some_inj.mp h]
    · simp only [lookup1, if_neg h2] at h
      simp [dictSet, h2, ih h]

theorem lookup1_of_mem_nodup (r : Record) (hn : (r.map Prod.fst).Nodup)
    (kv : String × Option PyStr) (hm : kv ∈ r) : lookup1 r kv.1 = some kv.2 := by
  induction r with
  | nil => simp at hm
  | cons kv' rest ih =>
    obtain ⟨k', v'⟩ := kv'
    simp only [List.map_cons, List.nodup_cons] at hn
    rcases List.mem_cons.mp hm with h | h
    · subst h; simp [lookup1]
    · have hne : k' ≠ kv.1 := by
        intro he
        exact hn.1 (he ▸ List.mem_map_of_mem Prod.fst h)
      simp [lookup1, hne, ih hn.2 h]

theorem truthy_of_set (v : Option PyStr) (h : is_manually_set v = true) :
    truthy v = true := by
  cases v with
  | none => simp [is_manually_set] at h
  | some s =>
    cases s with
    | nil => simp [is_manually_set, pyStrip] at h
    | cons c cs => simp [truthy]

theorem dictMem_of_set (r : Record) (k : String)
    (h : is_manually_set (pyGet r k) = true) : dictMem r k = true := by
  cases hl : lookup1 r k with
  | none =>
    rw [pyGet, pyGetD, hl] at h
    simp [is_manually_set] at h
  | some v => simp [dictMem, hl]

/-! ## safe_merge step lemmas -/

theorem pyGet_mergeStep_ne (acc : Record) (kv : String × Option PyStr)
    (f : String) (h : kv.1 ≠ f) :
    pyGet (mergeStep acc kv) f = pyGet acc f := by
  obtain ⟨k, v⟩ := kv
  replace h : k ≠ f := h
  unfold mergeStep
  dsimp only
  split_ifs <;> first | rfl | exact pyGet_dictSet_ne acc k f _ h

theorem pyGet_mergeStep_workid (acc : Record) (kv : String × Option PyStr) :
    pyGet (mergeStep acc kv) "work_id" = pyGet acc "work_id" := by
  by_cases h : kv.1 = "work_id"
  · obtain ⟨k, v⟩ := kv
    unfold mergeStep
    dsimp only
    simp [show k = "work_id" from h]
  · exact pyGet_mergeStep_ne acc kv "work_id" h

theorem foldl_mergeStep_workid (l : List (String × Option PyStr)) (acc : Record) :
    pyGet (l.foldl mergeStep acc) "work_id" = pyGet acc "work_id" := by
  induction l generalizing acc with
  | nil => rfl
  | cons kv rest ih => rw [List.foldl_cons, ih, pyGet_mergeStep_workid]

theorem pyGet_mergeStep_protected (acc : Record) (kv : String × Option PyStr)
    (f : String) (hf : f ∈ PROTECTED_FIELDS)
    (hset : is_manually_set (pyGet acc f) = true) :
    pyGet (mergeStep acc kv) f = pyGet acc f := by
  obtain ⟨k, v⟩ := kv
  by_cases h : k = f
  · subst h
    unfold mergeStep
    dsimp only
    by_cases hw : k = "work_id"
    · simp [hw]
    · have hmem : dictMem acc k = true := dictMem_of_set acc k hset
      have hcon : PROTECTED_FIELDS.contains k = true := by
        simpa [List.contains] using List.elem_eq_true_of_mem hf
      simp [hw, hmem, hcon, hset, hf]
  · exact pyGet_mergeStep_ne acc (k, v) f h

theorem foldl_mergeStep_protected (l : List (String × Option PyStr))
    (acc : Record) (f : String) (hf : f ∈ PROTECTED_FIELDS)
    (hset : is_manually_set (pyGet acc f) = true) :
    pyGet (l.foldl mergeStep acc) f = pyGet acc f := by
  induction l generalizing acc with
  | nil => rfl
  | cons kv rest ih =>
    rw [List.foldl_cons]
    have hstep := pyGet_mergeStep_protected acc kv f hf hset
    rw [ih (mergeStep acc kv) (hstep ▸ hset), hstep]

/-- Claim C1: protected-field immutability. For every field `f` in
`PROTECTED_FIELDS` (including `work_id` and `read_status`), and all records
`existing` and `new`, if `existing[f]` is set (non-empty after trimming),
then `safe_merge(existing, new)[f]` equals `existing[f]`, whatever `new`
holds at `f` (including `f` being absent from `new`). -/
theorem protected_immutable (f : String) (existing new : Record)
    (hf : f ∈ PROTECTED_FIELDS) (hset : is_manually_set (pyGet existing f) = true) :
    pyGet (safe_merge existing new) f = pyGet existing f := by
  unfold safe_merge
  by_cases hw : f = "work_id"
  · subst hw
    rw [foldl_mergeStep_workid]
    simp [truthy_of_set _ hset]
  · have hres : pyGet
        (if truthy (pyGet existing "work_id") then existing
         else if truthy (pyGet new "work_id") then
           dictSet existing "work_id" (pyGet new "work_id")
         else existing) f = pyGet existing f := by
      split_ifs <;>
        first | rfl | exact pyGet_dictSet_ne existing "work_id" f _ (Ne.symm hw)
    rw [foldl_mergeStep_protected _ _ f hf (hres ▸ hset), hres]

/-- Witness for C1 at a concrete pair of records: an existing manual
`rating` of `"5"` survives a merge that tries to set it to `"1"`. -/
theorem protected_immutable_witness :
    pyGet (safe_merge [("rating", some ['5'])] [("rating", some ['1'])]) "rating"
      = pyGet [("rating", some ['5'])] "rating" :=
  protected_immutable "rating" [("rating", some ['5'])] [("rating", some ['1'])]
    (by decide) (by decide)

/-- Counterexample to claim C5 as stated: with `existing['work_id']` a
whitespace-only string (unset in the spec's sense, as `is_manually_set`
confirms) and `new['work_id']` set, `safe_merge` keeps the whitespace
string instead of adopting `new`'s value. -/
theorem workid_trim_counterexample :
    pyGet (safe_merge [("work_id", some [' '])] [("work_id", some ['w'])]) "work_id"
        = some [' ']
      ∧ (some [' '] : Option PyStr) ≠ some ['w']
      ∧ is_manually_set (some ([' '] : PyStr)) = false
      ∧ is_manually_set (some (['w'] : PyStr)) = true := by
  refine ⟨by decide, by decide, by decide, by decide⟩

/-- Claim C5 (amended): `safe_merge` resolves `work_id` by Python
truthiness, not by the spec's trim-based notion of "set": a non-empty
existing `work_id` string — even whitespace-only — is kept unconditionally;
otherwise a non-empty `new` `work_id` is adopted; otherwise the field is
left as it was in `existing`. -/
theorem workid_resolution (existing new : Record) :
    (truthy (pyGet existing "work_id") = true →
      pyGet (safe_merge existing new) "work_id" = pyGet existing "work_id")
    ∧ (truthy (pyGet existing "work_id") = false →
        truthy (pyGet new "work_id") = true →
        pyGet (safe_merge existing new) "work_id" = pyGet new "work_id")
    ∧ (truthy (pyGet existing "work_id") = false →
        truthy (pyGet new "work_id") = false →
        pyGet (safe_merge existing new) "work_id" = pyGet existing "work_id") := by
  refine ⟨fun h1 => ?_, fun h1 h2 => ?_, fun h1 h2 => ?_⟩ <;>
    · unfold safe_merge
      rw [foldl_mergeStep_workid]
      simp [h1, *, pyGet_dictSet_self]

/-- Witness for C5 (amended) at concrete records. -/
theorem workid_resolution_witness :
    pyGet (safe_merge [("work_id", some ['a'])] [("work_id", some ['b'])]) "work_id"
      = pyGet [("work_id", some ['a'])] "work_id" :=
  (workid_resolution [("work_id", some ['a'])] [("work_id", some ['b'])]).1 (by decide)

/-! ## Idempotence -/

theorem listUnion_eq_right {α : Type} [DecidableEq α] (l d : List α)
    (h : ∀ x ∈ l, x ∈ d) : l ∪ d = d := by
  induction l with
  | nil => rfl
  | cons a t ih =>
    rw [List.cons_union, ih (fun x hx => h x (List.mem_cons_of_mem a hx))]
    exact List.insert_of_mem (h a (List.mem_cons_self a t))

theorem union_pipe_self (v : Option PyStr) : union_pipe v v = union_pipe v none := by
  have hcomb : (pipeTokens v ++ pipeTokens v).dedup
      = (pipeTokens v ++ pipeTokens none).dedup := by
    rw [List.dedup_append, show pipeTokens none = [] from rfl, List.append_nil]
    exact listUnion_eq_right _ _ (fun x hx => List.mem_dedup.mpr hx)
  simp only [union_pipe, hcomb]

theorem mergeStep_self (r : Record) (kv : String × Option PyStr)
    (hl : lookup1 r kv.1 = some kv.2)
    (hp : kv.1 ∈ (["formats", "sources", "tags"] : List String) →
      union_pipe kv.2 none = kv.2) :
    mergeStep r kv = r := by
  obtain ⟨k, v⟩ := kv
  replace hl : lookup1 r k = some v := hl
  replace hp : k ∈ (["formats", "sources", "tags"] : List String) →
      union_pipe v none = v := hp
  have hget : pyGet r k = v := by simp [pyGet, pyGetD, hl]
  have hmem : dictMem r k = true := by simp [dictMem, hl]
  unfold mergeStep
  dsimp only
  by_cases h1 : k = "work_id"
  · simp [h1]
  · by_cases h2 : k ∈ PROTECTED_FIELDS
    · simp [List.contains, h1, hmem, h2, hget]
    · by_cases h3 : k = "formats" ∨ k = "sources" ∨ k = "tags"
      · have hu : union_pipe v v = v := by
          rw [union_pipe_self]
          exact hp (by rcases h3 with h | h | h <;> simp [h])
        simp [List.contains, h1, hmem, h2, hget, hu,
          dictSet_lookup_eq r k v hl]
      · push_neg at h3
        simp [List.contains, h1, hmem, h2, hget, h3.1, h3.2.1, h3.2.2]

theorem foldl_mergeStep_self (r : Record) (hn : (r.map Prod.fst).Nodup)
    (hp : ∀ k ∈ (["formats", "sources", "tags"] : List String),
      PipeCanonical (pyGet r k))
    (l : List (String × Option PyStr)) (hsub : ∀ kv ∈ l, kv ∈ r) :
    l.foldl mergeStep r = r := by
  induction l with
  | nil => rfl
  | cons kv rest ih =>
    have hl := lookup1_of_mem_nodup r hn kv (hsub kv (List.mem_cons_self kv rest))
    have hpp : kv.1 ∈ (["formats", "sources", "tags"] : List String) →
        union_pipe kv.2 none = kv.2 := by
      intro hk
      have := hp kv.1 hk
      rwa [PipeCanonical, pyGet, pyGetD, hl] at this
    rw [List.foldl_cons, mergeStep_self r kv hl hpp]
    exact ih (fun kv' h => hsub kv' (List.mem_cons_of_mem kv h))

/-- Claim C8: idempotence of merge. For a well-formed record `r` (unique
keys, unset fields filled consistently with `None`, multi-valued fields in
pipe-set normal form), `safe_merge(r, r) == r`, every field unchanged,
including `formats`, `sources` and `tags`. -/
theorem merge_idempotent (r : Record) (h : WellFormed r) : safe_merge r r = r := by
  unfold safe_merge
  dsimp only
  split_ifs <;> exact foldl_mergeStep_self r h.1 h.2 r (fun kv hm => hm)

/-- Witness for C8 at a concrete well-formed record. -/
theorem merge_idempotent_witness :
    safe_merge
      [("work_id", some ("isbn13:9780743273565".toList)),
       ("title", some ("Dune".toList)), ("rating", some ['5']),
       ("formats", some ("kindle|physical".toList)), ("sources", none),
       ("tags", some ("scifi".toList))]
      [("work_id", some ("isbn13:9780743273565".toList)),
       ("title", some ("Dune".toList)), ("rating", some ['5']),
       ("formats", some ("kindle|physical".toList)), ("sources", none),
       ("tags", some ("scifi".toList))]
    = [("work_id", some ("isbn13:9780743273565".toList)),
       ("title", some ("Dune".toList)), ("rating", some ['5']),
       ("formats", some ("kindle|physical".toList)), ("sources", none),
       ("tags", some ("scifi".toList))] :=
  merge_idempotent _ ⟨by decide, by decide⟩

/-! ## Identifier gating of fuzzy matching -/

/-- Claim C2: fuzzy matching is disabled by identifier presence. If the new
record has a valid normalized ISBN-13 or ASIN, no candidate can yield a
fuzzy-tier match; if it has neither, a fuzzy-tier match requires title and
author similarity both at least 0.92 and combined score
`0.6*title_sim + 0.4*author_sim` at least 0.92, and the emitted confidence
is `min(0.85, combined)`. -/
theorem fuzzy_gated (new_row : Record) :
    (has_identifiers new_row = true →
      ∀ (existing : Record) (q : ℚ),
        candidateMatch new_row existing ≠ some (q, Tier.fuzzy))
    ∧ (has_identifiers new_row = false →
      ∀ (existing : Record) (q : ℚ),
        candidateMatch new_row existing = some (q, Tier.fuzzy) →
        compute_title_similarity (normalize_title (pyGetD new_row "title" (some [])))
            (normalize_title (pyGetD existing "title" (some []))) ≥ 92/100
        ∧ compute_author_similarity (normalize_author (pyGetD new_row "author" (some [])))
            (normalize_author (pyGetD existing "author" (some []))) ≥ 92/100
        ∧ compute_title_similarity (normalize_title (pyGetD new_row "title" (some [])))
              (normalize_title (pyGetD existing "title" (some []))) * (60/100)
            + compute_author_similarity (normalize_author (pyGetD new_row "author" (some [])))
              (normalize_author (pyGetD existing "author" (some []))) * (40/100) ≥ 92/100
        ∧ q = min (85/100)
            (compute_title_similarity (normalize_title (pyGetD new_row "title" (some [])))
              (normalize_title (pyGetD existing "title" (some []))) * (60/100)
            + compute_author_similarity (normalize_author (pyGetD new_row "author" (some [])))
              (normalize_author (pyGetD existing "author" (some []))) * (40/100))) := by
  constructor
  · intro h existing q heq
    simp only [candidateMatch, h] at heq
    split_ifs at heq <;> simp_all
  · intro h existing q heq
    simp only [candidateMatch, h, Bool.not_false, Bool.true_and] at heq
    split_ifs at heq
    all_goals try exact Option.noConfusion heq
    all_goals rw [Option.some_inj, Prod.mk.injEq] at heq
    all_goals try exact Tier.noConfusion heq.2
    all_goals
      rename_i hcond
      simp only [Bool.and_eq_true, decide_eq_true_eq, ge_iff_le] at hcond
      simp only [ge_iff_le]
      exact ⟨hcond.1.1.2, hcond.1.2, hcond.2, heq.1.symm⟩

/-- Witness for C2: a record with a valid ISBN-13 yields no fuzzy match
against any candidate, and a concrete identifier-free fuzzy match obeys the
thresholds with confidence `min(0.85, 0.98) = 0.85`. -/
theorem fuzzy_gated_witness :
    candidateMatch idNew ([] : Record) ≠ some ((85/100 : ℚ), Tier.fuzzy)
    ∧ (compute_title_similarity (normalize_title (pyGetD gatsbyNew "title" (some [])))
          (normalize_title (pyGetD gatsbyExisting "title" (some []))) ≥ 92/100
      ∧ compute_author_similarity (normalize_author (pyGetD gatsbyNew "author" (some [])))
          (normalize_author (pyGetD gatsbyExisting "author" (some []))) ≥ 92/100
      ∧ compute_title_similarity (normalize_title (pyGetD gatsbyNew "title" (some [])))
            (normalize_title (pyGetD gatsbyExisting "title" (some []))) * (60/100)
          + compute_author_similarity (normalize_author (pyGetD gatsbyNew "author" (some [])))
            (normalize_author (pyGetD gatsbyExisting "author" (some []))) * (40/100) ≥ 92/100
      ∧ (85/100 : ℚ) = min (85/100)
          (compute_title_similarity (normalize_title (pyGetD gatsbyNew "title" (some [])))
            (normalize_title (pyGetD gatsbyExisting "title" (some []))) * (60/100)
          + compute_author_similarity (normalize_author (pyGetD gatsbyNew "author" (some [])))
            (normalize_author (pyGetD gatsbyExisting "author" (some []))) * (40/100))) :=
  ⟨(fuzzy_gated idNew).1 (by decide) ([] : Record) (85/100),
   (fuzzy_gated gatsbyNew).2 (by decide) gatsbyExisting (85/100) (by decide)⟩

/-! ## Digest output shape -/

theorem toBytesLE_length (k n : Nat) : (toBytesLE k n).length = k := by
  induction k generalizing n with
  | zero => rfl
  | succ k ih => simp [toBytesLE, ih]

theorem toBytesLE_lt (k n : Nat) : ∀ b ∈ toBytesLE k n, b < 256 := by
  induction k generalizing n with
  | zero => simp [toBytesLE]
  | succ k ih =>
    intro b hb
    rcases List.mem_cons.mp hb with h | h
    · exact h ▸ Nat.mod_lt n (by norm_num)
    · exact ih _ b h

theorem md5Bytes_length (msg : List Nat) : (md5Bytes msg).length = 16 := by
  simp [md5Bytes, toBytesLE_length]

theorem md5Bytes_lt (msg : List Nat) : ∀ b ∈ md5Bytes msg, b < 256 := by
  intro b hb
  simp only [md5Bytes, List.mem_append] at hb
  rcases hb with ((h | h) | h) | h <;> exact toBytesLE_lt 4 _ b h

theorem bytesToHex_length (bs : List Nat) : (bytesToHex bs).length = 2 * bs.length := by
  induction bs with
  | nil => rfl
  | cons b t ih =>
    simp only [bytesToHex] at ih ⊢
    simp [ih]
    omega

theorem isHexChar_hexDigit (n : Nat) (h : n < 16) : isHexChar (hexDigit n) = true := by
  interval_cases n <;> decide

theorem bytesToHex_hex (bs : List Nat) (h : ∀ b ∈ bs, b < 256) :
    ∀ c ∈ bytesToHex bs, isHexChar c = true := by
  induction bs with
  | nil => simp [bytesToHex]
  | cons b t ih =>
    intro c hc
    have hb := h b (List.mem_cons_self b t)
    simp only [bytesToHex, List.map_cons, List.join] at hc
    rcases List.mem_cons.mp hc with h1 | h1
    · exact h1 ▸ isHexChar_hexDigit _ (Nat.div_lt_of_lt_mul hb)
    · rcases List.mem_cons.mp h1 with h2 | h2
      · exact h2 ▸ isHexChar_hexDigit _ (Nat.mod_lt b (by norm_num))
      · exact ih (fun x hx => h x (List.mem_cons_of_mem b hx)) c h2

/-! ## Canonical-ID priority -/

/-- Claim C6: canonical-ID priority. `compute_canonical_id` is a total
function that returns `"isbn13:" + value` whenever the ISBN-13 normalizes
(even when the ASIN is also valid, since the ASIN is not examined), else
`"asin:" + value` whenever the ASIN normalizes, else `"hash:"` plus a
deterministic 12-hex-character MD5-based digest of the normalized title and
author. -/
theorem canonical_priority (row : Record) :
    (∀ v, normalize_isbn13 (pyGetD row "isbn13" (some [])) = some v →
      compute_canonical_id row = "isbn13:".toList ++ v)
    ∧ (normalize_isbn13 (pyGetD row "isbn13" (some [])) = none →
      ∀ w, normalize_asin (pyGetD row "asin" (some [])) = some w →
        compute_canonical_id row = "asin:".toList ++ w)
    ∧ (normalize_isbn13 (pyGetD row "isbn13" (some [])) = none →
      normalize_asin (pyGetD row "asin" (some [])) = none →
      ∃ h : PyStr, compute_canonical_id row = "hash:".toList ++ h
        ∧ h = (md5hex (utf8Encode (normalize_title (pyGetD row "title" (some []))
            ++ '|' :: normalize_author (pyGetD row "author" (some []))))).take 12
        ∧ h.length = 12 ∧ ∀ c ∈ h, isHexChar c = true) := by
  refine ⟨fun v hv => ?_, fun hn w hw => ?_, fun hn ha => ?_⟩
  · simp [compute_canonical_id, hv]
  · simp [compute_canonical_id, hn, hw]
  · refine ⟨_, by simp [compute_canonical_id, hn, ha], rfl, ?_, ?_⟩
    · simp [md5hex, List.length_take, bytesToHex_length, md5Bytes_length]
    · intro c hc
      exact bytesToHex_hex _ (md5Bytes_lt _) c (List.take_subset _ _ hc)

/-- Witness for C6: a record with both identifiers valid gets the
`isbn13:` form, and a record with only title/author gets a 12-hex hash. -/
theorem canonical_priority_witness :
    compute_canonical_id
        [("isbn13", some ("978-0-7432-7356-5".toList)),
         ("asin", some ("B001234567".toList))]
      = "isbn13:9780743273565".toList :=
  (canonical_priority _).1 ("9780743273565".toList) (by decide)

/-! ## Totality of generate_work_id -/

/-- Claim C3 (code bug): `generate_work_id` is not total. A record whose
`isbn13` key stores Python `None` — exactly what `read_csv_safe` and
`normalize_row` produce for an empty or missing CSV cell — makes
`book.get('isbn13', '').strip()` at work_id.py line 33 raise
`AttributeError`, because `get` returns the stored `None`, not the `''`
default. -/
theorem generate_work_id_raises :
    generate_work_id [("isbn13", none)] none [] = .error .attributeError := rfl

/-! ## Hash collision of fully-unset records -/

/-- Claim C10: records without valid identifiers and with equal normalized
titles and authors share one canonical ID; in particular two records with
every identifying field unset collide on the fixed `hash:` of `"|"`, and
`find_matches` reports one empty record as a confidence-1.0 canonical-ID
match of the other. -/
theorem canonical_hash_collision :
    (∀ r1 r2 : Record,
      normalize_isbn13 (pyGetD r1 "isbn13" (some [])) = none →
      normalize_isbn13 (pyGetD r2 "isbn13" (some [])) = none →
      normalize_asin (pyGetD r1 "asin" (some [])) = none →
      normalize_asin (pyGetD r2 "asin" (some [])) = none →
      normalize_title (pyGetD r1 "title" (some []))
        = normalize_title (pyGetD r2 "title" (some [])) →
      normalize_author (pyGetD r1 "author" (some []))
        = normalize_author (pyGetD r2 "author" (some [])) →
      compute_canonical_id r1 = compute_canonical_id r2)
    ∧ find_matches ([] : Record) [([] : Record)] = [(0, ([] : Record), 1)] := by
  constructor
  · intro r1 r2 h1 h2 h3 h4 ht ha
    simp [compute_canonical_id, h1, h2, h3, h4, ht, ha]
  · decide

/-- Witness for C10: two records with different raw but equal normalized
titles collide. -/
theorem canonical_hash_collision_witness :
    compute_canonical_id [("title", some ['b'])]
      = compute_canonical_id [("title", some ['B'])] :=
  canonical_hash_collision.1 _ _ (by decide) (by decide) (by decide) (by decide)
    (by decide) (by decide)

/-! ## Digest divergence between work-id and canonical-ID -/

/-- Counterexample to claim C4 as stated: on the record
`{title: 'x', author: 'y'}` both hash fallbacks digest the same UTF-8 input
`"x|Y"`, but `generate_work_id` applies SHA-256 while `compute_canonical_id`
applies MD5, so the first 12 hex characters differ
(`a20e3bf6a93e` versus `d2f61523dc56`). -/
theorem hash_divergence_counterexample :
    generate_work_id xyBook none [] =
      .ok ("hash:".toList ++ (sha256hex (utf8Encode ('x' :: '|' :: 'Y' :: []))).take 16)
    ∧ compute_canonical_id xyBook =
      "hash:".toList ++ (md5hex (utf8Encode ('x' :: '|' :: 'Y' :: []))).take 12
    ∧ (sha256hex (utf8Encode ('x' :: '|' :: 'Y' :: []))).take 12 = "a20e3bf6a93e".toList
    ∧ (md5hex (utf8Encode ('x' :: '|' :: 'Y' :: []))).take 12 = "d2f61523dc56".toList
    ∧ ("a20e3bf6a93e".toList : PyStr) ≠ "d2f61523dc56".toList :=
  ⟨rfl, rfl, by decide, by decide, by decide⟩

/-- Claim C4 (amended): the two hash fallbacks digest the same UTF-8 input
`normalize_title(title) + "|" + normalize_author(author)`, but with
different digest functions and truncations — `generate_work_id` takes the
first 16 hex characters of SHA-256 while `compute_canonical_id` takes the
first 12 hex characters of MD5 — so the 12-character prefixes do not agree
in general. Stated for records whose `work_id` is absent or `None`, whose
`isbn13` and `asin` are the empty string, and whose title and author are
trimmed and non-empty. -/
theorem hash_inputs_agree (book : Record) (t a : PyStr)
    (hw : pyGet book "work_id" = none)
    (hi : pyGetD book "isbn13" (some []) = some [])
    (ha : pyGetD book "asin" (some []) = some [])
    (ht : pyGetD book "title" (some []) = some t)
    (hau : pyGetD book "author" (some []) = some a)
    (htt : pyStrip t = t) (htn : t ≠ [])
    (hat : pyStrip a = a) (han : a ≠ []) :
    generate_work_id book none [] =
      .ok ("hash:".toList ++ (sha256hex (utf8Encode
        (normalize_title (some t) ++ '|' :: normalize_author (some a)))).take 16)
    ∧ compute_canonical_id book =
      "hash:".toList ++ (md5hex (utf8Encode
        (normalize_title (some t) ++ '|' :: normalize_author (some a)))).take 12 := by
  have hsn : pyStrip ([] : PyStr) = [] := rfl
  have htne : t.isEmpty = false := by
    obtain ⟨c, ts, rfl⟩ := List.exists_cons_of_ne_nil htn
    rfl
  have hane : a.isEmpty = false := by
    obtain ⟨c, as1, rfl⟩ := List.exists_cons_of_ne_nil han
    rfl
  constructor
  · simp [generate_work_id, truthy, pyStripV, hw, hi, ha, ht, hau, htt, hat,
      hsn, htne, hane]
  · simp [compute_canonical_id, normalize_isbn13, normalize_asin, hi, ha, ht, hau]

/-- Witness for C4 (amended) on a concrete record. -/
theorem hash_inputs_agree_witness :
    generate_work_id duneBook none [] =
      .ok ("hash:".toList ++ (sha256hex (utf8Encode
        (normalize_title (some ("dune".toList))
          ++ '|' :: normalize_author (some ("herbert".toList))))).take 16)
    ∧ compute_canonical_id duneBook =
      "hash:".toList ++ (md5hex (utf8Encode
        (normalize_title (some ("dune".toList))
          ++ '|' :: normalize_author (some ("herbert".toList))))).take 12 :=
  hash_inputs_agree duneBook ("dune".toList) ("herbert".toList)
    rfl rfl rfl rfl rfl rfl (by decide) rfl (by decide)

/-! ## Article stripping order -/

theorem dropWhile_eq_self_of_head (l : PyStr)
    (h : ∀ c, l.head? = some c → pyIsSpace c = false) :
    l.dropWhile pyIsSpace = l := by
  cases l with
  | nil => rfl
  | cons c cs => simp [List.dropWhile_cons, h c rfl]

theorem pyStrip_eq_self (s : PyStr)
    (hh : ∀ c, s.head? = some c → pyIsSpace c = false)
    (hl : ∀ c, s.getLast? = some c → pyIsSpace c = false) :
    pyStrip s = s := by
  unfold pyStrip
  rw [dropWhile_eq_self_of_head s hh,
    dropWhile_eq_self_of_head s.reverse
      (fun c hc => hl c (by rwa [List.head?_reverse] at hc)),
    List.reverse_reverse]

/-- Counterexample to claim C7 as stated: `normalize_title` strips BOTH
leading articles from `"The A Team"` (first `"the "`, then `"a "`), so the
second article token is not retained. -/
theorem article_strip_counterexample :
    normalize_title (some ("The A Team".toList)) = "team".toList
    ∧ ("team".toList : PyStr) ≠ "a team".toList := by
  refine ⟨by decide, by decide⟩

/-- Claim C7 (amended): the article loop checks the prefixes `"the "`,
`"a "`, `"an "` in that fixed order, stripping each at most once from the
current front. Hence a second leading article is retained exactly when its
token does not come later in the order than the one already stripped: a
normalized title `"the the w"` keeps the second `"the"`, while
`"the a w"` loses both articles. -/
theorem article_strip_order (w : PyStr) (hw : w ≠ [])
    (hh : ∀ c, w.head? = some c → pyIsSpace c = false)
    (hl : ∀ c, w.getLast? = some c → pyIsSpace c = false)
    (hn : "an ".toList.isPrefixOf w = false) :
    stripArticles ("the the ".toList ++ w) = "the ".toList ++ w
    ∧ stripArticles ("the a ".toList ++ w) = w
    ∧ normalize_title (some ("the the x".toList)) = "the x".toList
    ∧ normalize_title (some ("the a team".toList)) = "team".toList := by
  have hlast : ∀ (p : PyStr), ∀ c, (p ++ w).getLast? = some c → pyIsSpace c = false := by
    intro p c hc
    rw [List.getLast?_append_of_ne_nil p hw] at hc
    exact hl c hc
  have hstrip1 : pyStrip ("the ".toList ++ w) = "the ".toList ++ w :=
    pyStrip_eq_self _ (fun c hc => by cases hc; rfl) (hlast "the ".toList)
  have hstrip2 : pyStrip ("a ".toList ++ w) = "a ".toList ++ w :=
    pyStrip_eq_self _ (fun c hc => by cases hc; rfl) (hlast "a ".toList)
  have hstripw : pyStrip w = w := pyStrip_eq_self w hh hl
  refine ⟨?_, ?_, by decide, by decide⟩
  · show stripArticles ("the ".toList ++ ("the ".toList ++ w)) = "the ".toList ++ w
    have hnota : ("a ".toList.isPrefixOf ("the ".toList ++ w)) = false := rfl
    have hnotan : ("an ".toList.isPrefixOf ("the ".toList ++ w)) = false := rfl
    simp only [stripArticles, List.foldl_cons, List.foldl_nil]
    rw [if_pos ( List.isPrefixOf_iff_prefix.mpr (List.prefix_append _ _)),
      show List.drop "the ".toList.length ("the ".toList ++ ("the ".toList ++ w)) = "the ".toList ++ w from rfl,
      hstrip1, if_neg (by simp [hnota]), if_neg (by simp [hnotan])]
  · show stripArticles ("the ".toList ++ ("a ".toList ++ w)) = w
    simp only [stripArticles, List.foldl_cons, List.foldl_nil]
    rw [if_pos ( List.isPrefixOf_iff_prefix.mpr (List.prefix_append _ _)),
      show List.drop "the ".toList.length ("the ".toList ++ ("a ".toList ++ w)) = "a ".toList ++ w from rfl,
      hstrip2,
      if_pos ( List.isPrefixOf_iff_prefix.mpr (List.prefix_append _ _)),
      show List.drop "a ".toList.length ("a ".toList ++ w) = w from rfl,
      hstripw, if_neg (by rw [hn]; exact Bool.false_ne_true)]

/-- Witness for C7 (amended) at `w = "team"`. -/
theorem article_strip_order_witness :
    stripArticles ("the the ".toList ++ "team".toList) = "the ".toList ++ "team".toList
    ∧ stripArticles ("the a ".toList ++ "team".toList) = "team".toList
    ∧ normalize_title (some ("the the x".toList)) = "the x".toList
    ∧ normalize_title (some ("the a team".toList)) = "team".toList :=
  article_strip_order ("team".toList) (by decide)
    (fun c hc => by cases hc; rfl) (fun c hc => by cases hc; rfl) (by decide)

/-! ## Work-id prefix families -/

/-- Counterexample to claim C9 as stated: the branch preserving
`existing_work_id` returns the preserved value verbatim, which need not
start with any of the four prefixes. -/
theorem workid_prefix_counterexample :
    generate_work_id [] (some ("zzz".toList)) [] = .ok ("zzz".toList)
    ∧ ("isbn13:".toList.isPrefixOf ("zzz".toList)
      || "asin:".toList.isPrefixOf ("zzz".toList)
      || "hash:".toList.isPrefixOf ("zzz".toList)
      || "uuid:".toList.isPrefixOf ("zzz".toList)) = false :=
  ⟨rfl, by decide⟩

/-- Claim C9 (amended): any string returned by `generate_work_id` either
starts with one of the prefixes `isbn13:`, `asin:`, `hash:`, `uuid:`
(the generating branches), or is the trimmed `existing_work_id` parameter,
or is the trimmed `work_id` value already in the record (the preserving
branches, which return the value verbatim). -/
theorem workid_prefix_families (book : Record) (ex : Option PyStr)
    (u : PyStr) (s : PyStr) (h : generate_work_id book ex u = .ok s) :
    ("isbn13:".toList.isPrefixOf s || "asin:".toList.isPrefixOf s
      || "hash:".toList.isPrefixOf s || "uuid:".toList.isPrefixOf s) = true
    ∨ (∃ e, ex = some e ∧ s = pyStrip e)
    ∨ (∃ v, pyGet book "work_id" = some v ∧ s = pyStrip v) := by
  simp only [generate_work_id] at h
  split_ifs at h with h1 h2
  · rcases ex with _ | e
    · simp [truthy] at h1
    · exact Or.inr (Or.inl ⟨e, rfl, (Except.ok.inj h).symm⟩)
  · rcases hg : pyGet book "work_id" with _ | v
    · rw [hg] at h2
      simp [truthy] at h2
    · rw [hg] at h
      exact Or.inr (Or.inr ⟨v, rfl, (Except.ok.inj h).symm⟩)
  · split at h
    · exact Except.noConfusion h
    · split_ifs at h with h3
      · refine Or.inl ?_
        rw [← Except.ok.inj h]
        simp
      · split at h
        · exact Except.noConfusion h
        · split_ifs at h with h4
          · refine Or.inl ?_
            rw [← Except.ok.inj h]
            simp
          · split at h
            · exact Except.noConfusion h
            · split at h
              · exact Except.noConfusion h
              · split_ifs at h with h5
                · refine Or.inl ?_
                  rw [← Except.ok.inj h]
                  simp
                · refine Or.inl ?_
                  rw [← Except.ok.inj h]
                  simp

/-- Witness for C9 (amended): a record with a valid ISBN-13 generates an
`isbn13:`-prefixed id. -/
theorem workid_prefix_families_witness :
    ("isbn13:".toList.isPrefixOf ("isbn13:9780743273565".toList)
      || "asin:".toList.isPrefixOf ("isbn13:9780743273565".toList)
      || "hash:".toList.isPrefixOf ("isbn13:9780743273565".toList)
      || "uuid:".toList.isPrefixOf ("isbn13:9780743273565".toList)) = true
    ∨ (∃ e, (none : Option PyStr) = some e
        ∧ "isbn13:9780743273565".toList = pyStrip e)
    ∨ (∃ v, pyGet idNew "work_id" = some v
        ∧ "isbn13:9780743273565".toList = pyStrip v) :=
  workid_prefix_families idNew none [] ("isbn13:9780743273565".toList) rfl

end Books
